import Mathlib

/-
  Verification development for sine_wave_superposition.py
  (one-dimensional superposition of sine waves).

  The embedding models:
  - model_sinewave (lines 18-43): the wave displacement formula with
    string-tagged propagation direction and phase polarity;
  - the update frame callback (lines 74-82): frame time, per-wave
    evaluation over the sample grid, elementwise sum;
  - the grid construction (lines 120-123): np.linspace over
    8 times the maximum wavelength with 500 samples.

  Real numbers stand for Python floats.  Python sequences (numpy arrays)
  are Lists of reals; numpy elementwise arithmetic becomes List.map and
  List.zipWith.  The only fallible operations on the modelled paths are
  the divisions (Python raises ZeroDivisionError on a zero denominator);
  the conditions under which they raise are modelled as explicit
  predicates on the parameters.
-/

/-- Model of the Python method str.lower restricted to ASCII: lowercase
every character.  The source compares lowered tags against the ASCII
literals "right" and "positive" (lines 38-39), for which ASCII lowering
coincides with full Unicode lowering. -/
def pyLower (s : String) : String := ⟨s.data.map Char.toLower⟩

/-- Line 38: polarity = 1 if phase_polarity.lower() == "positive" else -1. -/
noncomputable def polaritySign (phase_polarity : String) : ℝ :=
  if pyLower phase_polarity = "positive" then 1 else -1

/-- Line 39: propagation_factor = -1 if propagation.lower() == "right" else 1. -/
noncomputable def propagationFactor (propagation : String) : ℝ :=
  if pyLower propagation = "right" then -1 else 1

/-- Lines 18-43, model_sinewave at a single scalar position:
k = 2*pi/wavelength, omega = 2*pi*frequency,
y = polarity * A * sin(k*x + propagation_factor*omega*t + phi). -/
noncomputable def model_sinewave (x t A wavelength frequency phi : ℝ)
    (propagation phase_polarity : String) : ℝ :=
  let k := 2 * Real.pi / wavelength
  let omega := 2 * Real.pi * frequency
  polaritySign phase_polarity * A *
    Real.sin (k * x + propagationFactor propagation * omega * t + phi)

/-- model_sinewave applied to a numpy position array: the formula of
line 43 broadcasts elementwise over x. -/
noncomputable def model_sinewave_vec (xs : List ℝ) (t A wavelength frequency phi : ℝ)
    (propagation phase_polarity : String) : List ℝ :=
  xs.map fun x => model_sinewave x t A wavelength frequency phi propagation phase_polarity

/-- The wave parameter dictionaries passed to plot_wave_superposition:
keys A, wavelength, frequency, phi, propagation, phase_polarity. -/
structure WaveParams where
  A : ℝ
  wavelength : ℝ
  frequency : ℝ
  phi : ℝ
  propagation : String
  phase_polarity : String

/-- Lines 76-77: t = num * 0.025 / max(frequency of wave 1, frequency of wave 2). -/
noncomputable def update_t (w1 w2 : WaveParams) (num : ℕ) : ℝ :=
  (num : ℝ) * 0.025 / max w1.frequency w2.frequency

/-- Line 80: yw1 = model_sinewave(x, t, **wave_1_params). -/
noncomputable def update_yw1 (w1 w2 : WaveParams) (xs : List ℝ) (num : ℕ) : List ℝ :=
  model_sinewave_vec xs (update_t w1 w2 num)
    w1.A w1.wavelength w1.frequency w1.phi w1.propagation w1.phase_polarity

/-- Line 81: yw2 = model_sinewave(x, t, **wave_2_params). -/
noncomputable def update_yw2 (w1 w2 : WaveParams) (xs : List ℝ) (num : ℕ) : List ℝ :=
  model_sinewave_vec xs (update_t w1 w2 num)
    w2.A w2.wavelength w2.frequency w2.phi w2.propagation w2.phase_polarity

/-- Line 82: ywr = yw1 + yw2 (numpy elementwise addition). -/
noncomputable def update_ywr (w1 w2 : WaveParams) (xs : List ℝ) (num : ℕ) : List ℝ :=
  List.zipWith (fun a b => a + b) (update_yw1 w1 w2 xs num) (update_yw2 w1 w2 xs num)

/-- The full numeric output of one frame of update (lines 74-82): the
two per-wave sequences and the resultant sequence, before they are
handed to the line objects of the rendering sink. -/
noncomputable def run_frame (w1 w2 : WaveParams) (xs : List ℝ) (num : ℕ) :
    List ℝ × List ℝ × List ℝ :=
  (update_yw1 w1 w2 xs num, update_yw2 w1 w2 xs num, update_ywr w1 w2 xs num)

/-- np.linspace(start, stop, num) with the default endpoint behaviour:
num samples start + (stop - start) * i / (num - 1) for i = 0 .. num-1;
the last sample (i = num - 1) is exactly stop. -/
noncomputable def linspace (start stop : ℝ) (num : ℕ) : List ℝ :=
  (List.range num).map fun (i : ℕ) => start + (stop - start) * (i : ℝ) / ((num - 1 : ℕ) : ℝ)

/-- Lines 120-123: n = 500; x = np.linspace(0, 8 * max wavelength, n). -/
noncomputable def plot_grid (w1 w2 : WaveParams) : List ℝ :=
  linspace 0 (8 * max w1.wavelength w2.wavelength) 500

/-- The condition under which a call to model_sinewave raises in Python:
line 34 computes k = 2 * np.pi / wavelength, which raises
ZeroDivisionError exactly when wavelength equals zero.  No other
operation in model_sinewave can raise for real inputs. -/
def model_sinewave_raises (wavelength : ℝ) : Prop := wavelength = 0

/-- The condition under which one invocation of update raises in
Python: the division by the maximum frequency on line 77, or the
division by a wavelength inside the model_sinewave calls of
lines 80-81. -/
def update_raises (w1 w2 : WaveParams) : Prop :=
  max w1.frequency w2.frequency = 0 ∨
  model_sinewave_raises w1.wavelength ∨ model_sinewave_raises w2.wavelength

/-- The condition under which the grid construction of
plot_wave_superposition (lines 120-123) raises: it never does.  The
source performs no parameter validation at all before the animation
starts, and np.linspace with n = 500 divides only by the constant 499;
in particular a zero or negative wavelength or frequency is accepted
silently at construction time. -/
def plot_init_raises (_w1 _w2 : WaveParams) : Prop := False

/- Concrete wave parameter records, drawn from the example invocations
at the bottom of the source file and from the spec test vectors. -/

/-- A wave with wavelength 4 (example 2, wave 1). -/
noncomputable def w_four : WaveParams := ⟨5, 4, 10, 0, "right", "positive"⟩

/-- A wave with wavelength 10 (example 1, wave 2). -/
noncomputable def w_ten : WaveParams := ⟨5, 10, 90, 0, "left", "positive"⟩

/-- A wave with wavelength 0: the invalid-configuration probe. -/
noncomputable def w_zero : WaveParams := ⟨5, 0, 90, 0, "right", "positive"⟩

/-- A second wave with wavelength 0 and different remaining fields. -/
noncomputable def w_zero2 : WaveParams := ⟨1, 0, 1, 0, "left", "negative"⟩

/-- A unit wave used as a witness base. -/
noncomputable def w_pos : WaveParams := ⟨1, 1, 1, 0, "right", "positive"⟩

/- Helper lemmas about the string tags and list combinators. -/

lemma propagationFactor_right : propagationFactor "right" = -1 := by
  unfold propagationFactor
  rw [if_pos (by decide)]

lemma propagationFactor_left : propagationFactor "left" = 1 := by
  unfold propagationFactor
  rw [if_neg (by decide)]

lemma polaritySign_positive : polaritySign "positive" = 1 := by
  unfold polaritySign
  rw [if_pos (by decide)]

lemma polaritySign_negative : polaritySign "negative" = -1 := by
  unfold polaritySign
  rw [if_neg (by decide)]

lemma propagationFactor_ite (p : String) :
    propagationFactor (if pyLower p = "right" then "right" else "left") =
      propagationFactor p := by
  by_cases hp : pyLower p = "right"
  · rw [if_pos hp, propagationFactor_right, propagationFactor, if_pos hp]
  · rw [if_neg hp, propagationFactor_left, propagationFactor, if_neg hp]

lemma polaritySign_ite (pol : String) :
    polaritySign (if pyLower pol = "positive" then "positive" else "negative") =
      polaritySign pol := by
  by_cases hpol : pyLower pol = "positive"
  · rw [if_pos hpol, polaritySign_positive, polaritySign, if_pos hpol]
  · rw [if_neg hpol, polaritySign_negative, polaritySign, if_neg hpol]

lemma zipWith_add_map (f g : ℝ → ℝ) (xs : List ℝ) :
    List.zipWith (fun a b => a + b) (xs.map f) (xs.map g) =
      xs.map fun x => f x + g x := by
  induction xs with
  | nil => simp
  | cons a l ih => simp [ih]

lemma getD_map_of_lt {α : Type} (f : α → ℝ) (xs : List α) (i : ℕ) (h : i < xs.length) :
    (xs.map f).getD i 0 = f (xs.get ⟨i, h⟩) := by
  simp [List.getD_eq_getElem?_getD, List.getElem?_eq_getElem, h]

lemma update_ywr_length (w1 w2 : WaveParams) (xs : List ℝ) (num : ℕ) :
    (update_ywr w1 w2 xs num).length = xs.length := by
  simp [update_ywr, update_yw1, update_yw2, model_sinewave_vec]

lemma linspace_getD (a b : ℝ) (num i : ℕ) (h : i < num) :
    (linspace a b num).getD i 0 = a + (b - a) * (i : ℝ) / ((num - 1 : ℕ) : ℝ) := by
  have hl : i < (List.range num).length := by simpa using h
  unfold linspace
  rw [getD_map_of_lt _ (List.range num) i hl]
  simp [List.get_eq_getElem, List.getElem_range]

/- Claim theorems. -/

/-- C1: for every position x, time t and parameters with strictly positive
wavelength and frequency, model_sinewave returns
polarity_sign * A * sin((2*pi/wavelength) * x + direction_sign * (2*pi*frequency) * t + phi),
where direction_sign is -1 for the right propagation tag and +1 for left,
and polarity_sign is +1 for positive polarity and -1 for negative; applied
elementwise, the output has the same length as the position sequence. -/
theorem model_sinewave_formula (x t A wl f phi : ℝ) (xs : List ℝ) (p pol : String)
    (hwl : 0 < wl) (hf : 0 < f) :
    model_sinewave x t A wl f phi "right" "positive" =
      A * Real.sin (2 * Real.pi / wl * x + (-1) * (2 * Real.pi * f) * t + phi) ∧
    model_sinewave x t A wl f phi "left" "positive" =
      A * Real.sin (2 * Real.pi / wl * x + 1 * (2 * Real.pi * f) * t + phi) ∧
    model_sinewave x t A wl f phi "right" "negative" =
      -1 * (A * Real.sin (2 * Real.pi / wl * x + (-1) * (2 * Real.pi * f) * t + phi)) ∧
    model_sinewave x t A wl f phi "left" "negative" =
      -1 * (A * Real.sin (2 * Real.pi / wl * x + 1 * (2 * Real.pi * f) * t + phi)) ∧
    (model_sinewave_vec xs t A wl f phi p pol).length = xs.length := by
  refine ⟨?_, ?_, ?_, ?_, ?_⟩
  · simp only [model_sinewave, polaritySign_positive, propagationFactor_right]
    ring
  · simp only [model_sinewave, polaritySign_positive, propagationFactor_left]
    ring
  · simp only [model_sinewave, polaritySign_negative, propagationFactor_right]
    ring
  · simp only [model_sinewave, polaritySign_negative, propagationFactor_left]
    ring
  · simp [model_sinewave_vec]

/-- Witness for the formula theorem at x = 0, t = 0, A = 1, wavelength = 10,
frequency = 1, phase 0, with an empty position list and unrecognized tags. -/
theorem model_sinewave_formula_check :
    (0:ℝ) < 10 ∧ (0:ℝ) < 1 ∧
    (model_sinewave 0 0 1 10 1 0 "right" "positive" =
        1 * Real.sin (2 * Real.pi / 10 * 0 + (-1) * (2 * Real.pi * 1) * 0 + 0) ∧
      model_sinewave 0 0 1 10 1 0 "left" "positive" =
        1 * Real.sin (2 * Real.pi / 10 * 0 + 1 * (2 * Real.pi * 1) * 0 + 0) ∧
      model_sinewave 0 0 1 10 1 0 "right" "negative" =
        -1 * (1 * Real.sin (2 * Real.pi / 10 * 0 + (-1) * (2 * Real.pi * 1) * 0 + 0)) ∧
      model_sinewave 0 0 1 10 1 0 "left" "negative" =
        -1 * (1 * Real.sin (2 * Real.pi / 10 * 0 + 1 * (2 * Real.pi * 1) * 0 + 0)) ∧
      (model_sinewave_vec [] 0 1 10 1 0 "up" "down").length = ([] : List ℝ).length) :=
  ⟨by norm_num, by norm_num,
    model_sinewave_formula 0 0 1 10 1 0 [] "up" "down" (by norm_num) (by norm_num)⟩

/-- C5: the simulation time at which both waves are evaluated for frame num
equals num * 0.025 divided by the maximum frequency among the two waves. -/
theorem frame_time_formula (w1 w2 : WaveParams) (xs : List ℝ) (num : ℕ) :
    update_t w1 w2 num = (num : ℝ) * 0.025 / max w1.frequency w2.frequency ∧
    update_yw1 w1 w2 xs num =
      model_sinewave_vec xs ((num : ℝ) * 0.025 / max w1.frequency w2.frequency)
        w1.A w1.wavelength w1.frequency w1.phi w1.propagation w1.phase_polarity ∧
    update_yw2 w1 w2 xs num =
      model_sinewave_vec xs ((num : ℝ) * 0.025 / max w1.frequency w2.frequency)
        w2.A w2.wavelength w2.frequency w2.phi w2.propagation w2.phase_polarity :=
  ⟨rfl, rfl, rfl⟩

/-- C7: with wavelength 10, frequency 1, amplitude 1 and phase 0, at x = 0
and time 0.25, a right-propagating positive wave evaluates to
sin(-2*pi*0.25) = -1 and the left-propagating one to sin(2*pi*0.25) = 1. -/
theorem direction_sign_quarter_period :
    model_sinewave 0 0.25 1 10 1 0 "right" "positive" = -1 ∧
    model_sinewave 0 0.25 1 10 1 0 "left" "positive" = 1 := by
  constructor
  · simp only [model_sinewave, polaritySign_positive, propagationFactor_right]
    rw [show 2 * Real.pi / 10 * 0 + -1 * (2 * Real.pi * 1) * (0.25:ℝ) + 0
          = -(Real.pi / 2) by ring]
    rw [Real.sin_neg, Real.sin_pi_div_two]
    norm_num
  · simp only [model_sinewave, polaritySign_positive, propagationFactor_left]
    rw [show 2 * Real.pi / 10 * 0 + 1 * (2 * Real.pi * 1) * (0.25:ℝ) + 0
          = Real.pi / 2 by ring]
    rw [Real.sin_pi_div_two]
    norm_num

/-- C10: the propagation and polarity tags are compared after lowering, any
string whose lowering is not the recognized right or positive literal is
treated as the left or negative branch, and no tag string is ever
rejected: the evaluation coincides with the one at the canonical tags. -/
theorem string_tag_fallback (x t A wl f phi : ℝ) (p pol : String) :
    model_sinewave x t A wl f phi p pol =
      model_sinewave x t A wl f phi (if pyLower p = "right" then "right" else "left")
        (if pyLower pol = "positive" then "positive" else "negative") := by
  simp only [model_sinewave, polaritySign_ite, propagationFactor_ite]

/-- Pointwise form of one frame: each per-wave output list is a map over the grid. -/
lemma update_yw1_eq_map (w1 w2 : WaveParams) (xs : List ℝ) (num : ℕ) :
    update_yw1 w1 w2 xs num = xs.map fun x =>
      model_sinewave x (update_t w1 w2 num)
        w1.A w1.wavelength w1.frequency w1.phi w1.propagation w1.phase_polarity := rfl

lemma update_yw2_eq_map (w1 w2 : WaveParams) (xs : List ℝ) (num : ℕ) :
    update_yw2 w1 w2 xs num = xs.map fun x =>
      model_sinewave x (update_t w1 w2 num)
        w2.A w2.wavelength w2.frequency w2.phi w2.propagation w2.phase_polarity := rfl

lemma update_yw1_length (w1 w2 : WaveParams) (xs : List ℝ) (num : ℕ) :
    (update_yw1 w1 w2 xs num).length = xs.length := by
  rw [update_yw1_eq_map, List.length_map]

lemma update_yw2_length (w1 w2 : WaveParams) (xs : List ℝ) (num : ℕ) :
    (update_yw2 w1 w2 xs num).length = xs.length := by
  rw [update_yw2_eq_map, List.length_map]

/-- C2: at every frame, the resultant sequence has the length of the grid and
each of its entries is the sum of the corresponding entries of the two
individually evaluated per-wave sequences, with no normalization applied. -/
theorem update_additivity (w1 w2 : WaveParams) (xs : List ℝ) (num i : ℕ)
    (h : i < xs.length) :
    (update_ywr w1 w2 xs num).length = xs.length ∧
    (update_ywr w1 w2 xs num).getD i 0 =
      (update_yw1 w1 w2 xs num).getD i 0 + (update_yw2 w1 w2 xs num).getD i 0 := by
  refine ⟨update_ywr_length w1 w2 xs num, ?_⟩
  rw [update_ywr, update_yw1_eq_map, update_yw2_eq_map, zipWith_add_map]
  rw [getD_map_of_lt _ xs i h, getD_map_of_lt _ xs i h, getD_map_of_lt _ xs i h]

/-- Witness for the additivity theorem: frame 3 of the waves with
wavelengths 4 and 10 on a two-point grid, at index 0. -/
theorem update_additivity_check :
    0 < ([0, 1] : List ℝ).length ∧
    ((update_ywr w_four w_ten [0, 1] 3).length = ([0, 1] : List ℝ).length ∧
      (update_ywr w_four w_ten [0, 1] 3).getD 0 0 =
        (update_yw1 w_four w_ten [0, 1] 3).getD 0 0 +
          (update_yw2 w_four w_ten [0, 1] 3).getD 0 0) :=
  ⟨by simp, update_additivity w_four w_ten [0, 1] 3 0 (by simp)⟩

/-- A wave and its polarity-flipped copy cancel pointwise. -/
lemma wave_add_opposite_polarity (w : WaveParams) (p2 : String) (x t : ℝ)
    (h : polaritySign p2 = - polaritySign w.phase_polarity) :
    model_sinewave x t w.A w.wavelength w.frequency w.phi w.propagation w.phase_polarity +
      model_sinewave x t w.A w.wavelength w.frequency w.phi w.propagation p2 = 0 := by
  simp only [model_sinewave]
  rw [h]
  ring

/-- C3: two waves with identical amplitude, wavelength, frequency, phase
offset and propagation direction but opposite polarity sum to the zero
sequence at every frame index and every grid position. -/
theorem opposite_polarity_cancellation (w : WaveParams) (p2 : String) (xs : List ℝ)
    (num : ℕ) (h : polaritySign p2 = - polaritySign w.phase_polarity) :
    update_ywr w { w with phase_polarity := p2 } xs num = xs.map fun _ => (0:ℝ) := by
  rw [update_ywr, update_yw1_eq_map, update_yw2_eq_map, zipWith_add_map]
  refine List.map_congr_left fun x _ => ?_
  exact wave_add_opposite_polarity w p2 x (update_t w { w with phase_polarity := p2 } num) h

/-- Witness for the cancellation theorem: a positive-polarity unit wave and
its negative-polarity copy on a two-point grid at frame 0. -/
theorem opposite_polarity_cancellation_check :
    polaritySign "negative" = - polaritySign w_pos.phase_polarity ∧
    update_ywr w_pos { w_pos with phase_polarity := "negative" } [0, 1] 0 =
      ([0, 1] : List ℝ).map fun _ => (0:ℝ) := by
  have h : polaritySign "negative" = - polaritySign w_pos.phase_polarity := by
    rw [polaritySign_negative, show w_pos.phase_polarity = "positive" from rfl,
      polaritySign_positive]
  exact ⟨h, opposite_polarity_cancellation w_pos "negative" [0, 1] 0 h⟩

/-- C4 counterexample: with wavelength 0 on wave 1 and a valid wave 2,
construction does not fail: the grid-building step raises nothing and
produces the full 500-sample grid, while the ZeroDivisionError condition
holds for the per-frame wave evaluation, so the failure occurs
mid-animation rather than at initialization, and no InvalidConfiguration
check exists in the source. -/
theorem zero_wavelength_cex :
    ¬ plot_init_raises w_zero w_ten ∧
    (plot_grid w_zero w_ten).length = 500 ∧
    update_raises w_zero w_ten := by
  refine ⟨fun h => h, ?_, Or.inr (Or.inl rfl)⟩
  simp [plot_grid, linspace]

/-- C4 amended: no validation is performed at initialization: for any two
parameter records the grid construction never raises and always yields the
full 500-sample grid, and when a wavelength is zero the division-by-zero
failure condition holds for every invocation of the frame callback, i.e.
the failure surfaces mid-animation. -/
theorem zero_wavelength_raises_mid_animation (w1 w2 : WaveParams)
    (h : w1.wavelength = 0) :
    ¬ plot_init_raises w1 w2 ∧ (plot_grid w1 w2).length = 500 ∧
      update_raises w1 w2 := by
  refine ⟨fun hh => hh, ?_, Or.inr (Or.inl h)⟩
  simp [plot_grid, linspace]

/-- Witness for the amended initialization theorem at a concrete
zero-wavelength configuration. -/
theorem zero_wavelength_raises_mid_animation_check :
    w_zero2.wavelength = 0 ∧
    (¬ plot_init_raises w_zero2 w_pos ∧ (plot_grid w_zero2 w_pos).length = 500 ∧
      update_raises w_zero2 w_pos) :=
  ⟨rfl, zero_wavelength_raises_mid_animation w_zero2 w_pos rfl⟩

/-- For the example waves with wavelengths 4 and 10 the grid is
np.linspace(0, 80, 500). -/
lemma plot_grid_four_ten : plot_grid w_four w_ten = linspace 0 80 500 := by
  rw [plot_grid,
    show max w_four.wavelength w_ten.wavelength = w_ten.wavelength from
      max_eq_right (by norm_num [w_four, w_ten])]
  norm_num [w_ten]

/-- C6 counterexample: for the waves with wavelengths 4 and 10, the derived
grid has 500 samples but its last sample equals 80 exactly (np.linspace
includes the endpoint), so it is not the case that every grid position is
strictly less than 80. -/
theorem grid_endpoint_cex :
    (plot_grid w_four w_ten).length = 500 ∧
    (plot_grid w_four w_ten).getD 499 0 = 80 ∧
    ¬ (∀ y ∈ plot_grid w_four w_ten, y < 80) := by
  have hlen : (plot_grid w_four w_ten).length = 500 := by
    rw [plot_grid_four_ten]
    simp [linspace]
  have hget : (plot_grid w_four w_ten).getD 499 0 = 80 := by
    rw [plot_grid_four_ten, linspace_getD 0 80 500 499 (by norm_num)]
    norm_num
  refine ⟨hlen, hget, fun hall => ?_⟩
  have h499 : 499 < (linspace 0 80 500).length := by simp [linspace]
  have hval : (linspace 0 80 500).get ⟨499, h499⟩ = 80 := by
    have h80 := hget
    rw [plot_grid_four_ten] at h80
    rwa [List.getD_eq_getElem?_getD, List.getElem?_eq_getElem h499,
      Option.getD_some] at h80
  have hmem : (80:ℝ) ∈ plot_grid w_four w_ten := by
    rw [plot_grid_four_ten]
    have hm := List.get_mem (linspace 0 80 500) 499 h499
    rwa [hval] at hm
  exact lt_irrefl 80 (hall 80 hmem)

/-- C6 amended: the grid is derived once from the maximum wavelength as 500
uniformly spaced positions; for wavelengths 4 and 10 it spans the closed
interval from 0 to 80 (8 times the maximum wavelength) endpoint included:
sample i is 80 * i / 499, at least 0 and at most 80. -/
theorem grid_sizing (i : ℕ) (h : i < 500) :
    (plot_grid w_four w_ten).length = 500 ∧
    (plot_grid w_four w_ten).getD i 0 = 80 * (i : ℝ) / 499 ∧
    0 ≤ (plot_grid w_four w_ten).getD i 0 ∧
    (plot_grid w_four w_ten).getD i 0 ≤ 80 := by
  have hv : (plot_grid w_four w_ten).getD i 0 = 80 * (i : ℝ) / 499 := by
    rw [plot_grid_four_ten, linspace_getD 0 80 500 i h]
    norm_num
  have hi : (i : ℝ) ≤ 499 := by
    exact_mod_cast Nat.lt_succ_iff.mp h
  refine ⟨by rw [plot_grid_four_ten]; simp [linspace], hv, ?_, ?_⟩
  · rw [hv]
    exact div_nonneg (mul_nonneg (by norm_num) (Nat.cast_nonneg i)) (by norm_num)
  · rw [hv, div_le_iff₀ (by norm_num : (0:ℝ) < 499)]
    nlinarith

/-- Witness for the grid sizing theorem at the last sample index. -/
theorem grid_sizing_check :
    499 < 500 ∧
    ((plot_grid w_four w_ten).length = 500 ∧
      (plot_grid w_four w_ten).getD 499 0 = 80 * ((499:ℕ) : ℝ) / 499 ∧
      0 ≤ (plot_grid w_four w_ten).getD 499 0 ∧
      (plot_grid w_four w_ten).getD 499 0 ≤ 80) :=
  ⟨by norm_num, grid_sizing 499 (by norm_num)⟩

/-- C8: per-frame computation is pure and total for valid parameters: with
strictly positive wavelengths and frequencies none of the divisions of the
frame callback can raise, and evaluating the same frame twice on the same
inputs yields the same output triple (the embedding of update is a
function of the parameters, grid and frame index alone: the callback
reads no mutable state between frames). -/
theorem frame_determinism (w1 w2 : WaveParams) (xs : List ℝ) (num : ℕ)
    (hl1 : 0 < w1.wavelength) (hl2 : 0 < w2.wavelength)
    (hf1 : 0 < w1.frequency) (hf2 : 0 < w2.frequency) :
    ¬ update_raises w1 w2 ∧ run_frame w1 w2 xs num = run_frame w1 w2 xs num := by
  refine ⟨?_, rfl⟩
  rintro (h | h | h)
  · exact absurd h (ne_of_gt (lt_max_iff.mpr (Or.inl hf1)))
  · exact absurd h (ne_of_gt hl1)
  · exact absurd h (ne_of_gt hl2)

/-- Witness for the purity theorem on a concrete valid configuration. -/
theorem frame_determinism_check :
    (0:ℝ) < w_pos.wavelength ∧ (0:ℝ) < w_ten.wavelength ∧
    (0:ℝ) < w_pos.frequency ∧ (0:ℝ) < w_ten.frequency ∧
    (¬ update_raises w_pos w_ten ∧
      run_frame w_pos w_ten [0] 0 = run_frame w_pos w_ten [0] 0) :=
  ⟨by norm_num [w_pos], by norm_num [w_ten], by norm_num [w_pos], by norm_num [w_ten],
    frame_determinism w_pos w_ten [0] 0 (by norm_num [w_pos]) (by norm_num [w_ten])
      (by norm_num [w_pos]) (by norm_num [w_ten])⟩

/-- C9: a right-propagating wave with phase offset 0, evaluated at x = 0,
returns to the same displacement after one full temporal period
1/frequency; the equality is exact over the reals. -/
theorem temporal_periodicity (A wl f t : ℝ) (pol : String) (hf : 0 < f) :
    model_sinewave 0 (t + 1 / f) A wl f 0 "right" pol =
      model_sinewave 0 t A wl f 0 "right" pol := by
  have hf0 : f ≠ 0 := ne_of_gt hf
  simp only [model_sinewave, propagationFactor_right]
  have harg : 2 * Real.pi / wl * 0 + -1 * (2 * Real.pi * f) * (t + 1 / f) + 0
      = (2 * Real.pi / wl * 0 + -1 * (2 * Real.pi * f) * t + 0) - 2 * Real.pi := by
    field_simp
    ring
  rw [harg, Real.sin_sub_two_pi]

/-- Witness for the periodicity theorem with unit parameters at t = 0. -/
theorem temporal_periodicity_check :
    (0:ℝ) < 1 ∧
    model_sinewave 0 (0 + 1 / 1) 1 1 1 0 "right" "positive" =
      model_sinewave 0 0 1 1 1 0 "right" "positive" :=
  ⟨by norm_num, temporal_periodicity 1 1 1 0 "positive" (by norm_num)⟩
